import Mathlib

/-!
Verification of the notification listener in
src/openstack-operator/src/notification_listener.py.

The Python module consists of two functions:

* start_notification_listener (lines 20-71): a reconnect loop around an
  aio-pika consumer — connect, declare topology, consume; on connection
  failure log and sleep 10 s and retry; on asyncio.CancelledError inside
  the try block, log and return.
* _handle_message (lines 74-100): json.loads the body, unwrap the nested
  "oslo.message" envelope if present, filter on event_type ==
  "identity.user.created", extract payload["resource_info"], and invoke
  the on_user_created callback if it is truthy.

The embedding models JSON documents as an inductive type, json.loads /
json.dumps as an executable parser / serializer over character lists
(numbers restricted to integers: no claim involves floating point), the
Python attribute/subscript/membership operations including the exceptions
they raise on ill-typed operands, and the reconnect loop as a function of
a script of environment responses at each await point.
-/

set_option maxHeartbeats 1000000

/-- A JSON document, as produced by Python's json.loads.  Objects are
insertion-ordered association lists (Python dicts preserve insertion
order); lookups take the last binding for a key, matching the dict that
json.loads builds when a key repeats. -/
inductive PyVal : Type
  | pyNone : PyVal
  | pyBool (b : Bool) : PyVal
  | pyInt (n : Int) : PyVal
  | pyStr (s : String) : PyVal
  | pyList (items : List PyVal) : PyVal
  | pyDict (entries : List (String × PyVal)) : PyVal

/-- The opening brace character, written by hex escape. -/
def lbrace : Char := '\x7b'

/-- The closing brace character, written by hex escape. -/
def rbrace : Char := '\x7d'

/-- Decimal digit character for a value below ten. -/
def digitChar : Nat → Char
  | 0 => '0' | 1 => '1' | 2 => '2' | 3 => '3' | 4 => '4'
  | 5 => '5' | 6 => '6' | 7 => '7' | 8 => '8' | _ => '9'

/-- Decimal digits of a natural number, most significant first. -/
def natChars (n : Nat) : List Char :=
  if _ : n < 10 then [digitChar n]
  else natChars (n / 10) ++ [digitChar (n % 10)]
termination_by n
decreasing_by exact Nat.div_lt_self (by omega) (by omega)

/-- Decimal rendering of an integer. -/
def intChars (n : Int) : List Char :=
  if n < 0 then '-' :: natChars n.natAbs else natChars n.natAbs

/-- JSON string escaping: quote and backslash get a backslash prefix,
every other character is emitted as itself. -/
def escChar (c : Char) : List Char :=
  if c = '\"' ∨ c = '\\' then ['\\', c] else [c]

/-- Escape a whole character sequence. -/
def escString : List Char → List Char
  | [] => []
  | c :: cs => escChar c ++ escString cs

mutual

/-- Serializer for JSON documents (models json.dumps with separators and
no added whitespace). -/
def dumpJson : PyVal → List Char
  | .pyNone => ['n', 'u', 'l', 'l']
  | .pyBool true => ['t', 'r', 'u', 'e']
  | .pyBool false => ['f', 'a', 'l', 's', 'e']
  | .pyInt n => intChars n
  | .pyStr s => '\"' :: (escString s.toList ++ ['\"'])
  | .pyList [] => ['[', ']']
  | .pyList (x :: xs) => '[' :: (dumpJson x ++ dumpItems xs ++ [']'])
  | .pyDict [] => [lbrace, rbrace]
  | .pyDict (f :: fs) => lbrace :: (dumpField f ++ dumpFields fs ++ [rbrace])

/-- Remaining array elements, each preceded by a comma. -/
def dumpItems : List PyVal → List Char
  | [] => []
  | x :: xs => ',' :: (dumpJson x ++ dumpItems xs)

/-- One object member: quoted key, colon, value. -/
def dumpField : String × PyVal → List Char
  | (k, v) => '\"' :: (escString k.toList ++ ('\"' :: ':' :: dumpJson v))

/-- Remaining object members, each preceded by a comma. -/
def dumpFields : List (String × PyVal) → List Char
  | [] => []
  | f :: fs => ',' :: (dumpField f ++ dumpFields fs)

end

/-- json.dumps as a string-valued function. -/
def json_dumps (j : PyVal) : String := String.mk (dumpJson j)

/-- Is the character a decimal digit? -/
def isDigitCh (c : Char) : Bool := 48 ≤ c.toNat && c.toNat ≤ 57

/-- Numeric value of a digit character. -/
def digitVal (c : Char) : Nat := c.toNat - 48

/-- Body of a JSON string after the opening quote: a backslash takes the
next character literally, an unescaped quote ends the string. -/
def parseStrBody : List Char → Option (List Char × List Char)
  | [] => none
  | c :: rest =>
    if c = '\\' then
      match rest with
      | [] => none
      | d :: rest2 =>
        match parseStrBody rest2 with
        | some (s, r) => some (d :: s, r)
        | none => none
    else if c = '\"' then some ([], rest)
    else
      match parseStrBody rest with
      | some (s, r) => some (c :: s, r)
      | none => none

/-- Greedy run of digit characters, folding them onto an accumulator. -/
def parseNatAcc (acc : Nat) : List Char → Nat × List Char
  | [] => (acc, [])
  | c :: rest =>
    if isDigitCh c then parseNatAcc (10 * acc + digitVal c) rest
    else (acc, c :: rest)

/-- A non-empty digit run: fails unless the first character is a digit. -/
def parseNatFull : List Char → Option (Nat × List Char)
  | [] => none
  | c :: rest =>
    if isDigitCh c then some (parseNatAcc (digitVal c) rest) else none

/-- Match an exact sequence of expected characters. -/
def expectChars : List Char → List Char → Option (List Char)
  | [], input => some input
  | _ :: _, [] => none
  | e :: es, c :: cs => if c = e then expectChars es cs else none

/-- One step of value parsing, parameterized by the parsers for the
remainder of an array and of an object.  Together with the fuelled
wrappers below this models the grammar accepted by json.loads on the
documents this program exchanges (integer numerals; no inter-token
whitespace). -/
def parseValBody
    (pItems : List Char → Option (List PyVal × List Char))
    (pFields : List Char → Option (List (String × PyVal) × List Char)) :
    List Char → Option (PyVal × List Char)
  | [] => none
  | c :: rest =>
    if c = 'n' then
      match expectChars ['u', 'l', 'l'] rest with
      | some r => some (PyVal.pyNone, r)
      | none => none
    else if c = 't' then
      match expectChars ['r', 'u', 'e'] rest with
      | some r => some (PyVal.pyBool true, r)
      | none => none
    else if c = 'f' then
      match expectChars ['a', 'l', 's', 'e'] rest with
      | some r => some (PyVal.pyBool false, r)
      | none => none
    else if c = '\"' then
      match parseStrBody rest with
      | some (s, r) => some (PyVal.pyStr (String.mk s), r)
      | none => none
    else if c = '[' then
      match rest with
      | [] => none
      | d :: rest2 =>
        if d = ']' then some (PyVal.pyList [], rest2)
        else
          match pItems (d :: rest2) with
          | some (vs, r) => some (PyVal.pyList vs, r)
          | none => none
    else if c = lbrace then
      match rest with
      | [] => none
      | d :: rest2 =>
        if d = rbrace then some (PyVal.pyDict [], rest2)
        else
          match pFields (d :: rest2) with
          | some (fs, r) => some (PyVal.pyDict fs, r)
          | none => none
    else if c = '-' then
      match parseNatFull rest with
      | some (m, r) => some (PyVal.pyInt (-(m : Int)), r)
      | none => none
    else
      match parseNatFull (c :: rest) with
      | some (m, r) => some (PyVal.pyInt (m : Int), r)
      | none => none

/-- One step of parsing the elements of a non-empty array, parameterized
by the value parser and the parser for the remaining elements. -/
def parseItemsBody
    (pVal : List Char → Option (PyVal × List Char))
    (pItems : List Char → Option (List PyVal × List Char)) :
    List Char → Option (List PyVal × List Char) := fun input =>
  match pVal input with
  | none => none
  | some (v, r) =>
    match r with
    | [] => none
    | c :: r2 =>
      if c = ',' then
        match pItems r2 with
        | some (vs, r3) => some (v :: vs, r3)
        | none => none
      else if c = ']' then some ([v], r2)
      else none

/-- One step of parsing the members of a non-empty object, parameterized
by the value parser and the parser for the remaining members. -/
def parseFieldsBody
    (pVal : List Char → Option (PyVal × List Char))
    (pFields : List Char → Option (List (String × PyVal) × List Char)) :
    List Char → Option (List (String × PyVal) × List Char)
  | [] => none
  | c :: r0 =>
    if c = '\"' then
      match parseStrBody r0 with
      | none => none
      | some (k, r1) =>
        match r1 with
        | [] => none
        | d :: r2 =>
          if d = ':' then
            match pVal r2 with
            | none => none
            | some (v, r3) =>
              match r3 with
              | [] => none
              | e :: r4 =>
                if e = ',' then
                  match pFields r4 with
                  | some (fs, r5) => some ((String.mk k, v) :: fs, r5)
                  | none => none
                else if e = rbrace then some ([(String.mk k, v)], r4)
                else none
          else none
    else none

mutual

/-- Fuelled recursive-descent JSON value parser. -/
def parseVal : Nat → List Char → Option (PyVal × List Char)
  | 0, _ => none
  | fuel + 1, input => parseValBody (parseItemsF fuel) (parseFieldsF fuel) input

/-- Fuelled parser for one or more array elements up to the closing
bracket. -/
def parseItemsF : Nat → List Char → Option (List PyVal × List Char)
  | 0, _ => none
  | fuel + 1, input => parseItemsBody (parseVal fuel) (parseItemsF fuel) input

/-- Fuelled parser for one or more object members up to the closing
brace. -/
def parseFieldsF : Nat → List Char → Option (List (String × PyVal) × List Char)
  | 0, _ => none
  | fuel + 1, input => parseFieldsBody (parseVal fuel) (parseFieldsF fuel) input

end

/-- Errors raised by the Python operations that _handle_message performs;
the constructor records which operation raised (the sequential control
flow makes the raise site observable). -/
inductive PyErr : Type
  /-- json.loads on malformed text: json.JSONDecodeError (a ValueError). -/
  | jsonDecode : PyErr
  /-- Membership test on a non-container (int, bool, None): TypeError. -/
  | containsTypeError : PyErr
  /-- Subscript with a string key on a non-dict: TypeError. -/
  | subscriptTypeError : PyErr
  /-- json.loads applied to a value that is not text: TypeError. -/
  | loadsTypeError : PyErr
  /-- Missing key on a dict subscript: KeyError. -/
  | keyError : PyErr
  /-- Calling .get on a value with no such attribute: AttributeError,
  tagged with the key the code was trying to read. -/
  | getAttrError (key : String) : PyErr
  /-- The on_user_created coroutine raised an ordinary Exception. -/
  | callbackError : PyErr
deriving DecidableEq

/-- json.loads: parse the full input, requiring every character to be
consumed; any failure is a decode error. -/
def json_loads (s : String) : Except PyErr PyVal :=
  match parseVal (s.toList.length + 1) s.toList with
  | some (j, []) => .ok j
  | _ => .error .jsonDecode

/-- Last binding for a key in an insertion-ordered association list;
models indexing into the dict that json.loads builds, where a repeated
key keeps its last value. -/
def lookupLast (k : String) : List (String × PyVal) → Option PyVal
  | [] => none
  | (k2, v) :: fs =>
    match lookupLast k fs with
    | some r => some r
    | none => if k2 = k then some v else none

/-- Substring test on character lists (Python: needle in haystack for
str operands). -/
def containsSub (needle : List Char) : List Char → Bool
  | [] => needle.isEmpty
  | c :: cs => needle.isPrefixOf (c :: cs) || containsSub needle cs

/-- Python equality of a JSON value against a string constant: only an
equal str compares equal; every other value (int, bool, list, dict,
None) compares unequal without raising. -/
def pyEqStr (v : PyVal) (s : String) : Bool :=
  match v with
  | .pyStr t => t = s
  | _ => false

/-- Python membership test key in data (line 82).  Dict: key lookup.
List: element equality against the string.  Str: substring test.
Int, bool, None: TypeError (argument not iterable). -/
def pyContains (k : String) : PyVal → Except PyErr Bool
  | .pyDict fs => .ok (lookupLast k fs).isSome
  | .pyList xs => .ok (xs.any (fun x => pyEqStr x k))
  | .pyStr s => .ok (containsSub k.toList s.toList)
  | _ => .error .containsTypeError

/-- Python subscript data[k] (line 83).  Dict: lookup, KeyError when
absent.  Any other value: TypeError (indices must be integers). -/
def pySubscript (k : String) : PyVal → Except PyErr PyVal
  | .pyDict fs =>
    match lookupLast k fs with
    | some v => .ok v
    | none => .error .keyError
  | _ => .error .subscriptTypeError

/-- Python value.get(k, dflt) (lines 87, 92, 94).  Only dicts have a
get attribute; every other value raises AttributeError. -/
def pyGet (k : String) (dflt : PyVal) : PyVal → Except PyErr PyVal
  | .pyDict fs => .ok ((lookupLast k fs).getD dflt)
  | _ => .error (.getAttrError k)

/-- Python truthiness (line 95, if not user_id): empty string, zero,
False, None, empty list and empty dict are falsy; everything else is
truthy. -/
def pyTruthy : PyVal → Bool
  | .pyNone => false
  | .pyBool b => b
  | .pyInt n => n ≠ 0
  | .pyStr s => s ≠ ""
  | .pyList xs => ¬ xs.isEmpty
  | .pyDict fs => ¬ fs.isEmpty

/-- Outcome of awaiting the on_user_created callback, chosen by the
environment: normal completion, an ordinary Exception, or delivery of
asyncio.CancelledError at that suspension point. -/
inductive CbResp : Type
  | ok : CbResp
  | exn : CbResp
  | cancel : CbResp
deriving DecidableEq

/-- An exception leaving _handle_message: an ordinary Exception (caught
by the consume loop's except Exception) or asyncio.CancelledError
(which is not an Exception in Python >= 3.8 and passes through). -/
inductive PyExc : Type
  | exc (e : PyErr) : PyExc
  | cancelled : PyExc
deriving DecidableEq

/-- Observable actions of the listener: spec-level state transitions,
sleeps with their duration in seconds, message acknowledgments, callback
invocations with their argument, and log records. -/
inductive Act : Type
  | stConnecting : Act
  | stConnected : Act
  | stBackoff : Act
  | stTerminated : Act
  | sleep (secs : Nat) : Act
  | ack : Act
  | callCb (arg : PyVal) : Act
  | logReceived (arg : PyVal) : Act
  | logWarning : Act
  | logHandleError : Act
  | logConnFail : Act
  | logShutdown : Act

/-- What one run of _handle_message did: the actions it performed, in
order, and the exception (if any) that escaped it. -/
structure HandleOut : Type where
  acts : List Act
  exc : Option PyExc

/-- Lines 79-85 of _handle_message: data = json.loads(body); if
"oslo.message" is in data, the real envelope is json.loads of that
field's value (json.loads raises TypeError unless the value is text);
otherwise the top-level document is the envelope. -/
def resolve_envelope (body : String) : Except PyErr PyVal :=
  match json_loads body with
  | .error e => .error e
  | .ok data =>
    match pyContains "oslo.message" data with
    | .error e => .error e
    | .ok true =>
      match pySubscript "oslo.message" data with
      | .error e => .error e
      | .ok (PyVal.pyStr s) => json_loads s
      | .ok _ => .error .loadsTypeError
    | .ok false => .ok data

/-- Lines 87-100 of _handle_message: read event_type (default empty
string), return silently unless it equals "identity.user.created", read
payload (default empty dict) and resource_info (default empty string),
warn and return if the value is falsy, otherwise log and await
on_user_created with it. -/
def process_event (inner : PyVal) (cbr : CbResp) : HandleOut :=
  match pyGet "event_type" (PyVal.pyStr "") inner with
  | .error e => ⟨[], some (.exc e)⟩
  | .ok et =>
    if pyEqStr et "identity.user.created" = false then ⟨[], none⟩
    else
      match pyGet "payload" (PyVal.pyDict []) inner with
      | .error e => ⟨[], some (.exc e)⟩
      | .ok payload =>
        match pyGet "resource_info" (PyVal.pyStr "") payload with
        | .error e => ⟨[], some (.exc e)⟩
        | .ok user_id =>
          if pyTruthy user_id = false then ⟨[.logWarning], none⟩
          else
            match cbr with
            | .ok => ⟨[.logReceived user_id, .callCb user_id], none⟩
            | .exn => ⟨[.logReceived user_id, .callCb user_id], some (.exc .callbackError)⟩
            | .cancel => ⟨[.logReceived user_id, .callCb user_id], some .cancelled⟩

/-- _handle_message (lines 74-100): envelope resolution followed by
filtering and dispatch; any exception from resolution escapes. -/
def handle_message (body : String) (cbr : CbResp) : HandleOut :=
  match resolve_envelope body with
  | .error e => ⟨[], some (.exc e)⟩
  | .ok inner => process_event inner cbr

/-- The environment's response at one await point of the listener:
normal completion, delivery of a message (with the outcome the callback
would have), an ordinary Exception, or asyncio.CancelledError. -/
inductive EnvEv : Type
  | ok : EnvEv
  | deliver (body : String) (cbr : CbResp) : EnvEv
  | exn : EnvEv
  | cancel : EnvEv

/-- Control position inside the while-True loop: connecting counts the
setup awaits still to complete (connect_robust, channel, set_qos,
declare_queue, declare_exchange, bind = 6); consuming is the async-for;
backoff is the await asyncio.sleep(10) inside the except handler. -/
inductive Phase : Type
  | connecting (steps : Nat) : Phase
  | consuming : Phase
  | backoff : Phase

/-- How a run of the listener ended: returned normally, let
CancelledError propagate to the caller, let an ordinary exception
propagate, or ran out of scripted environment events while still
looping. -/
inductive LoopResult : Type
  | returned : LoopResult
  | raisedCancel : LoopResult
  | raisedExn : LoopResult
  | stuck : LoopResult
deriving DecidableEq

/-- One-step interpreter of start_notification_listener's loop (lines
34-71) against a script of environment responses, one response per
await point.  Setup failure or consume failure logs and enters backoff
(except Exception branch, lines 67-71); CancelledError inside the try
block logs and returns (lines 64-66); a message runs _handle_message
under except Exception (lines 59-62) and is acknowledged whenever the
async-with block exits without exception; the backoff sleep sits inside
the except handler, so an exception there — including CancelledError —
propagates out of the function. -/
def run : Phase → List EnvEv → List Act × LoopResult
  | _, [] => ([], .stuck)
  | .connecting n, ev :: rest =>
    match ev with
    | .exn =>
      let p := run .backoff rest
      (.logConnFail :: .stBackoff :: p.1, p.2)
    | .cancel => ([.logShutdown, .stTerminated], .returned)
    | _ =>
      if n ≤ 1 then
        let p := run .consuming rest
        (.stConnected :: p.1, p.2)
      else run (.connecting (n - 1)) rest
  | .consuming, ev :: rest =>
    match ev with
    | .exn =>
      let p := run .backoff rest
      (.logConnFail :: .stBackoff :: p.1, p.2)
    | .cancel => ([.logShutdown, .stTerminated], .returned)
    | .ok =>
      let p := run (.connecting 6) rest
      (.stConnecting :: p.1, p.2)
    | .deliver body cbr =>
      let h := handle_message body cbr
      match h.exc with
      | none =>
        let p := run .consuming rest
        (h.acts ++ .ack :: p.1, p.2)
      | some .cancelled => (h.acts ++ [.logShutdown, .stTerminated], .returned)
      | some (.exc _) =>
        let p := run .consuming rest
        (h.acts ++ .logHandleError :: .ack :: p.1, p.2)
  | .backoff, ev :: rest =>
    match ev with
    | .cancel => ([], .raisedCancel)
    | .exn => ([], .raisedExn)
    | _ =>
      let p := run (.connecting 6) rest
      (.sleep 10 :: .stConnecting :: p.1, p.2)

/-- start_notification_listener (lines 20-71): enter the loop in the
Connecting phase with all six setup awaits pending. -/
def start_notification_listener (script : List EnvEv) : List Act × LoopResult :=
  let p := run (.connecting 6) script
  (.stConnecting :: p.1, p.2)

/-- Arguments of the callback invocations recorded in an action list. -/
def callsOf : List Act → List PyVal
  | [] => []
  | .callCb v :: rest => v :: callsOf rest
  | _ :: rest => callsOf rest

/-- Is the action a sleep of any duration? -/
def isSleepAct : Act → Bool
  | .sleep _ => true
  | _ => false

/-- Is the action the Backoff transition? -/
def isBackoffAct : Act → Bool
  | .stBackoff => true
  | _ => false

/-- Is the action the Connecting transition? -/
def isConnectingAct : Act → Bool
  | .stConnecting => true
  | _ => false

/-- Is the action the Terminated transition? -/
def isTerminatedAct : Act → Bool
  | .stTerminated => true
  | _ => false

/-- Is the action a sleep of exactly ten seconds? -/
def isSleep10Act : Act → Bool
  | .sleep secs => secs = 10
  | _ => false

mutual

/-- Node-count measure of a JSON document, used to bound parser fuel. -/
def jsize : PyVal → Nat
  | .pyNone => 1
  | .pyBool _ => 1
  | .pyInt _ => 1
  | .pyStr _ => 1
  | .pyList xs => 1 + isize xs
  | .pyDict fs => 1 + fsize fs

/-- Measure of a list of array elements. -/
def isize : List PyVal → Nat
  | [] => 0
  | x :: xs => 1 + jsize x + isize xs

/-- Measure of a list of object members. -/
def fsize : List (String × PyVal) → Nat
  | [] => 0
  | f :: fs => 1 + jsize f.2 + fsize fs

end

/-- Value of a big-endian digit string. -/
def digitsVal : List Char → Nat
  | [] => 0
  | d :: ds => digitVal d * 10 ^ ds.length + digitsVal ds

/-- Does the input not begin with a digit?  A greedy numeral parse stops
exactly at such a boundary. -/
def noDigitHead : List Char → Bool
  | [] => true
  | c :: _ => !(isDigitCh c)

/-- The serializer never emits whitespace, so a value embedded in an
array, an object or at top level is always followed by end of input, a
comma, a closing bracket or a closing brace. -/
def delimOk : List Char → Bool
  | [] => true
  | c :: _ => c = ',' || c = ']' || c = rbrace

/-- Is the JSON value an object (a Python dict after json.loads)? -/
def PyVal.isDict : PyVal → Bool
  | .pyDict _ => true
  | _ => false

/-- The nested event document used in the C2 witness. -/
def c2InnerDoc : PyVal :=
  PyVal.pyDict [("event_type", PyVal.pyStr "identity.user.created"),
    ("payload", PyVal.pyDict [("resource_info", PyVal.pyStr "U1")])]

/-- A concrete nested-form body for the C2 witness, with a conflicting
top-level event_type that the nested field must take precedence over. -/
def c2Body : String :=
  json_dumps (PyVal.pyDict [("oslo.message", PyVal.pyStr (json_dumps c2InnerDoc)),
    ("event_type", PyVal.pyStr "compute.instance.update")])

/-- A direct-form body with a non-matching event type for the C3
witness. -/
def c3Body : String :=
  json_dumps (PyVal.pyDict [("event_type", PyVal.pyStr "identity.user.deleted")])

/-- A direct-form qualifying body for the C5 and C9 witnesses. -/
def c5Body : String :=
  json_dumps (PyVal.pyDict [("event_type", PyVal.pyStr "identity.user.created"),
    ("payload", PyVal.pyDict [("resource_info", PyVal.pyStr "U1")])])

/-- A qualifying body with no payload at all (resource_info defaults to
the empty string) for the C6 witness. -/
def c6Body : String :=
  json_dumps (PyVal.pyDict [("event_type", PyVal.pyStr "identity.user.created")])

/-- One failed connection episode: k successful awaits (k < 6 fails
during setup — connect, channel, qos, queue, exchange, bind; k = 6
fails mid-stream while consuming), then the failure, then the backoff
sleep completing. -/
def failEpisode (k : Fin 7) : List EnvEv :=
  List.replicate k.val .ok ++ [.exn, .ok]

/-- A script of consecutive connection failures, each at a chosen
position. -/
def failScript (ks : List (Fin 7)) : List EnvEv := (ks.map failEpisode).flatten

/-- The actions one failed episode produces. -/
def episodeActs (k : Fin 7) : List Act :=
  if k.val = 6 then
    [.stConnected, .logConnFail, .stBackoff, .sleep 10, .stConnecting]
  else [.logConnFail, .stBackoff, .sleep 10, .stConnecting]

/-- A qualifying direct-form body whose resource_info is the non-string
truthy value 5, for the C9 witness. -/
def c9Body : String :=
  json_dumps (PyVal.pyDict [("event_type", PyVal.pyStr "identity.user.created"),
    ("payload", PyVal.pyDict [("resource_info", PyVal.pyInt 5)])])

theorem jsize_pos (j : PyVal) : 1 ≤ jsize j := by
  cases j <;> simp [jsize]

theorem digitChar_digit (d : Nat) (h : d < 10) :
    isDigitCh (digitChar d) = true ∧ digitVal (digitChar d) = d := by
  interval_cases d <;> exact ⟨by decide, by decide⟩

theorem digitsVal_append (xs : List Char) (d : Char) :
    digitsVal (xs ++ [d]) = 10 * digitsVal xs + digitVal d := by
  induction xs with
  | nil => simp [digitsVal]
  | cons x xs ih =>
    simp [digitsVal, ih, List.length_append, pow_succ]
    ring

theorem natChars_spec (n : Nat) :
    natChars n ≠ [] ∧ (∀ c ∈ natChars n, isDigitCh c = true) ∧
      digitsVal (natChars n) = n := by
  induction n using Nat.strong_induction_on with
  | _ n ih =>
    rw [natChars]
    by_cases h : n < 10
    · simp only [h, dite_true]
      refine ⟨by simp, ?_, ?_⟩
      · intro c hc
        simp at hc
        subst hc
        exact (digitChar_digit n h).1
      · simp [digitsVal, (digitChar_digit n h).2]
    · simp only [h, dite_false]
      have hlt : n / 10 < n := Nat.div_lt_self (by omega) (by omega)
      obtain ⟨h1, h2, h3⟩ := ih (n / 10) hlt
      refine ⟨by simp, ?_, ?_⟩
      · intro c hc
        rcases List.mem_append.mp hc with hc | hc
        · exact h2 c hc
        · simp at hc
          subst hc
          exact (digitChar_digit (n % 10) (Nat.mod_lt _ (by omega))).1
      · rw [digitsVal_append, h3,
          (digitChar_digit (n % 10) (Nat.mod_lt _ (by omega))).2]
        omega

theorem parseNatAcc_digits (ds : List Char) :
    ∀ acc rest, (∀ c ∈ ds, isDigitCh c = true) → noDigitHead rest = true →
      parseNatAcc acc (ds ++ rest) = (acc * 10 ^ ds.length + digitsVal ds, rest) := by
  induction ds with
  | nil =>
    intro acc rest _ hrest
    cases rest with
    | nil => simp [parseNatAcc, digitsVal]
    | cons c cs =>
      simp [noDigitHead] at hrest
      simp [parseNatAcc, hrest, digitsVal]
  | cons d ds ih =>
    intro acc rest hds hrest
    have hd : isDigitCh d = true := hds d (by simp)
    simp only [List.cons_append, parseNatAcc, hd, if_true, List.append_eq]
    rw [ih _ rest (fun c hc => hds c (by simp [hc])) hrest]
    simp [digitsVal, List.length_cons, pow_succ]
    ring

theorem parseNatFull_natChars (n : Nat) (rest : List Char)
    (hrest : noDigitHead rest = true) :
    parseNatFull (natChars n ++ rest) = some (n, rest) := by
  obtain ⟨hne, hdig, hval⟩ := natChars_spec n
  obtain ⟨d, ds, hds⟩ : ∃ d ds, natChars n = d :: ds := by
    cases h : natChars n with
    | nil => exact absurd h hne
    | cons d ds => exact ⟨d, ds, rfl⟩
  rw [hds] at hdig hval
  have hd : isDigitCh d = true := hdig d (by simp)
  rw [hds]
  simp only [List.cons_append, parseNatFull, hd, if_true]
  rw [parseNatAcc_digits ds _ rest (fun c hc => hdig c (by simp [hc])) hrest]
  simp [digitsVal] at hval
  simp [hval]

theorem expectChars_append (es rest : List Char) :
    expectChars es (es ++ rest) = some rest := by
  induction es with
  | nil => simp [expectChars]
  | cons e es ih => simp [expectChars, ih]

theorem parseStrBody_escString (cs : List Char) :
    ∀ rest, parseStrBody (escString cs ++ ('\"' :: rest)) = some (cs, rest) := by
  induction cs with
  | nil =>
    intro rest
    rw [escString, List.nil_append, parseStrBody.eq_def]
    simp
  | cons c cs ih =>
    intro rest
    rw [escString, escChar, List.append_assoc]
    by_cases h : c = '\"' ∨ c = '\\'
    · rw [if_pos h, List.cons_append, List.cons_append, List.nil_append,
        parseStrBody.eq_def]
      simp [ih rest]
    · have h1 : c ≠ '\"' := fun hc => h (Or.inl hc)
      have h2 : c ≠ '\\' := fun hc => h (Or.inr hc)
      rw [if_neg h, List.cons_append, List.nil_append, parseStrBody.eq_def]
      simp [h1, h2, ih rest]

theorem delimOk_noDigit (rest : List Char) (h : delimOk rest = true) :
    noDigitHead rest = true := by
  cases rest with
  | nil => rfl
  | cons c cs =>
    simp only [delimOk, Bool.or_eq_true, decide_eq_true_eq] at h
    rcases h with (h | h) | h <;> rw [h] <;> rfl

theorem digit_ne (c x : Char) (hx : isDigitCh x = false)
    (hc : isDigitCh c = true) : c ≠ x := by
  intro h
  rw [h, hx] at hc
  exact Bool.noConfusion hc

theorem string_mk_toList (s : String) : String.mk s.toList = s := rfl

theorem string_mk_data (s : String) : String.mk s.data = s := rfl

theorem dumpJson_head (j : PyVal) :
    ∃ c t, dumpJson j = c :: t ∧ c ≠ ']' ∧ c ≠ rbrace := by
  cases j with
  | pyNone => exact ⟨'n', ['u', 'l', 'l'], by simp [dumpJson], by decide, by decide⟩
  | pyBool b =>
    cases b
    · exact ⟨'f', ['a', 'l', 's', 'e'], by simp [dumpJson], by decide, by decide⟩
    · exact ⟨'t', ['r', 'u', 'e'], by simp [dumpJson], by decide, by decide⟩
  | pyInt n =>
    have hd : dumpJson (PyVal.pyInt n) = intChars n := by simp [dumpJson]
    by_cases hn : n < 0
    · exact ⟨'-', natChars n.natAbs, by rw [hd, intChars, if_pos hn],
        by decide, by decide⟩
    · obtain ⟨hne, hdig, -⟩ := natChars_spec n.natAbs
      obtain ⟨d, ds, hds⟩ : ∃ d ds, natChars n.natAbs = d :: ds := by
        cases h : natChars n.natAbs with
        | nil => exact absurd h hne
        | cons d ds => exact ⟨d, ds, rfl⟩
      have hdd : isDigitCh d = true := hdig d (by rw [hds]; simp)
      exact ⟨d, ds, by rw [hd, intChars, if_neg hn, hds],
        digit_ne _ _ (by decide) hdd, digit_ne _ _ (by decide) hdd⟩
  | pyStr s =>
    exact ⟨'\"', escString s.toList ++ ['\"'], by simp [dumpJson],
      by decide, by decide⟩
  | pyList xs =>
    cases xs with
    | nil => exact ⟨'[', [']'], by simp [dumpJson], by decide, by decide⟩
    | cons x xs =>
      exact ⟨'[', dumpJson x ++ dumpItems xs ++ [']'], by simp [dumpJson],
        by decide, by decide⟩
  | pyDict fs =>
    cases fs with
    | nil => exact ⟨lbrace, [rbrace], by simp [dumpJson], by decide, by decide⟩
    | cons f fs =>
      exact ⟨lbrace, dumpField f ++ dumpFields fs ++ [rbrace],
        by simp [dumpJson], by decide, by decide⟩

theorem parse_dump_master : ∀ N : Nat,
    (∀ j, jsize j ≤ N → ∀ fuel rest, jsize j < fuel → delimOk rest = true →
      parseVal fuel (dumpJson j ++ rest) = some (j, rest)) ∧
    (∀ y ys, isize (y :: ys) ≤ N → ∀ fuel rest, isize (y :: ys) < fuel →
      delimOk rest = true →
      parseItemsF fuel (dumpJson y ++ (dumpItems ys ++ (']' :: rest)))
        = some (y :: ys, rest)) ∧
    (∀ (k : String) (v : PyVal) fs, fsize ((k, v) :: fs) ≤ N → ∀ fuel rest,
      fsize ((k, v) :: fs) < fuel → delimOk rest = true →
      parseFieldsF fuel
        ('\"' :: (escString k.data ++ ('\"' :: (':' :: (dumpJson v ++
          (dumpFields fs ++ (rbrace :: rest)))))))
        = some ((k, v) :: fs, rest)) := by
  intro N
  induction N with
  | zero =>
    refine ⟨?_, ?_, ?_⟩
    · intro j hN
      exfalso
      have := jsize_pos j
      omega
    · intro y ys hN
      exfalso
      have h1 : isize (y :: ys) = 1 + jsize y + isize ys := by simp [isize]
      omega
    · intro k v fs hN
      exfalso
      have h1 : fsize ((k, v) :: fs) = 1 + jsize v + fsize fs := by simp [fsize]
      omega
  | succ N ih =>
    obtain ⟨ihV, ihI, ihF⟩ := ih
    refine ⟨?_, ?_, ?_⟩
    · -- parseVal round trip
      intro j hN fuel rest hfuel hrest
      obtain ⟨f, rfl⟩ : ∃ f, fuel = f + 1 := by
        have := jsize_pos j
        cases fuel with
        | zero => omega
        | succ f => exact ⟨f, rfl⟩
      cases j with
      | pyNone =>
        have hrw : dumpJson PyVal.pyNone ++ rest = 'n' :: ('u' :: 'l' :: 'l' :: rest) := by
          simp [dumpJson]
        rw [hrw]
        simp only [parseVal]
        rw [parseValBody.eq_def]
        simp [expectChars]
      | pyBool b =>
        cases b with
        | true =>
          have hrw : dumpJson (PyVal.pyBool true) ++ rest
              = 't' :: ('r' :: 'u' :: 'e' :: rest) := by simp [dumpJson]
          rw [hrw]
          simp only [parseVal]
          rw [parseValBody.eq_def]
          simp [expectChars]
        | false =>
          have hrw : dumpJson (PyVal.pyBool false) ++ rest
              = 'f' :: ('a' :: 'l' :: 's' :: 'e' :: rest) := by simp [dumpJson]
          rw [hrw]
          simp only [parseVal]
          rw [parseValBody.eq_def]
          simp [expectChars]
      | pyInt n =>
        have hd : dumpJson (PyVal.pyInt n) = intChars n := by simp [dumpJson]
        by_cases hn : n < 0
        · have hrw : dumpJson (PyVal.pyInt n) ++ rest
              = '-' :: (natChars n.natAbs ++ rest) := by
            rw [hd, intChars, if_pos hn, List.cons_append]
          have hfull := parseNatFull_natChars n.natAbs rest (delimOk_noDigit rest hrest)
          have hneg : -((n.natAbs : Int)) = n := by omega
          rw [hrw]
          simp only [parseVal]
          rw [parseValBody.eq_def]
          simp [(by decide : ¬ ('-' = lbrace)), hfull]
          rw [abs_of_neg hn, neg_neg]
        · obtain ⟨hne, hdig, -⟩ := natChars_spec n.natAbs
          obtain ⟨d, ds, hds⟩ : ∃ d ds, natChars n.natAbs = d :: ds := by
            cases h : natChars n.natAbs with
            | nil => exact absurd h hne
            | cons d ds => exact ⟨d, ds, rfl⟩
          have hdd : isDigitCh d = true := hdig d (by rw [hds]; simp)
          have hrw : dumpJson (PyVal.pyInt n) ++ rest = d :: (ds ++ rest) := by
            rw [hd, intChars, if_neg hn, hds, List.cons_append]
          have hfull : parseNatFull (d :: (ds ++ rest)) = some (n.natAbs, rest) := by
            rw [← List.cons_append, ← hds]
            exact parseNatFull_natChars n.natAbs rest (delimOk_noDigit rest hrest)
          have hpos : ((n.natAbs : Int)) = n := by omega
          rw [hrw]
          simp only [parseVal]
          rw [parseValBody.eq_def]
          simp [digit_ne d 'n' (by decide) hdd, digit_ne d 't' (by decide) hdd,
            digit_ne d 'f' (by decide) hdd, digit_ne d '\"' (by decide) hdd,
            digit_ne d '[' (by decide) hdd, digit_ne d '-' (by decide) hdd,
            digit_ne d lbrace (by decide) hdd, hfull, hpos]
      | pyStr s =>
        have hrw : dumpJson (PyVal.pyStr s) ++ rest
            = '\"' :: (escString s.toList ++ ('\"' :: rest)) := by
          simp [dumpJson]
        rw [hrw]
        simp only [parseVal]
        rw [parseValBody.eq_def]
        simp [parseStrBody_escString, string_mk_toList]
      | pyList xs =>
        cases xs with
        | nil =>
          have hrw : dumpJson (PyVal.pyList []) ++ rest = '[' :: (']' :: rest) := by
            simp [dumpJson]
          rw [hrw]
          simp only [parseVal]
          rw [parseValBody.eq_def]
          simp
        | cons x xs =>
          obtain ⟨c0, t0, hx, hxr, -⟩ := dumpJson_head x
          have hsz : jsize (PyVal.pyList (x :: xs)) = 1 + isize (x :: xs) := by
            simp [jsize]
          have hitems := ihI x xs (by omega) f rest (by omega) hrest
          have hrw : dumpJson (PyVal.pyList (x :: xs)) ++ rest
              = '[' :: (c0 :: (t0 ++ (dumpItems xs ++ (']' :: rest)))) := by
            have h1 : dumpJson (PyVal.pyList (x :: xs))
                = '[' :: (dumpJson x ++ dumpItems xs ++ [']']) := by simp [dumpJson]
            rw [h1, hx]
            simp
          have harg : c0 :: (t0 ++ (dumpItems xs ++ (']' :: rest)))
              = dumpJson x ++ (dumpItems xs ++ (']' :: rest)) := by
            rw [hx, List.cons_append]
          rw [hrw]
          simp only [parseVal]
          rw [parseValBody.eq_def]
          simp [hxr, harg, hitems]
      | pyDict fs =>
        cases fs with
        | nil =>
          have hrw : dumpJson (PyVal.pyDict []) ++ rest = lbrace :: (rbrace :: rest) := by
            simp [dumpJson]
          rw [hrw]
          simp only [parseVal]
          rw [parseValBody.eq_def]
          simp [(by decide : ¬ (lbrace = 'n')), (by decide : ¬ (lbrace = 't')),
            (by decide : ¬ (lbrace = 'f')), (by decide : ¬ (lbrace = '\"')),
            (by decide : ¬ (lbrace = '['))]
        | cons fv fs2 =>
          obtain ⟨k, v⟩ := fv
          have hsz : jsize (PyVal.pyDict ((k, v) :: fs2)) = 1 + fsize ((k, v) :: fs2) := by
            simp [jsize]
          have hfields := ihF k v fs2 (by omega) f rest (by omega) hrest
          have hrw : dumpJson (PyVal.pyDict ((k, v) :: fs2)) ++ rest
              = lbrace :: ('\"' :: (escString k.data ++ ('\"' :: (':' :: (dumpJson v ++
                  (dumpFields fs2 ++ (rbrace :: rest))))))) := by
            have h1 : dumpJson (PyVal.pyDict ((k, v) :: fs2))
                = lbrace :: (dumpField (k, v) ++ dumpFields fs2 ++ [rbrace]) := by
              simp [dumpJson]
            rw [h1]
            simp [dumpField]
          rw [hrw]
          simp only [parseVal]
          rw [parseValBody.eq_def]
          simp [(by decide : ¬ (lbrace = 'n')), (by decide : ¬ (lbrace = 't')),
            (by decide : ¬ (lbrace = 'f')), (by decide : ¬ (lbrace = '\"')),
            (by decide : ¬ (lbrace = '[')), (by decide : ¬ (('\"' : Char) = rbrace)),
            hfields]
    · -- parseItemsF round trip
      intro y ys hN fuel rest hfuel hrest
      have hsz1 : isize (y :: ys) = 1 + jsize y + isize ys := by simp [isize]
      obtain ⟨f, rfl⟩ : ∃ f, fuel = f + 1 := by
        cases fuel with
        | zero => omega
        | succ f => exact ⟨f, rfl⟩
      cases ys with
      | nil =>
        have hX : dumpItems ([] : List PyVal) ++ (']' :: rest) = ']' :: rest := by
          simp [dumpItems]
        have hval := ihV y (by omega) f (']' :: rest) (by omega) (by rfl)
        rw [show dumpJson y ++ (dumpItems ([] : List PyVal) ++ (']' :: rest))
            = dumpJson y ++ (']' :: rest) from by rw [hX]]
        simp only [parseItemsF]
        simp [parseItemsBody, hval]
      | cons y2 ys2 =>
        have hsz2 : isize (y2 :: ys2) = 1 + jsize y2 + isize ys2 := by simp [isize]
        have hj1 := jsize_pos y
        have hj2 := jsize_pos y2
        have hX : dumpItems (y2 :: ys2) ++ (']' :: rest)
            = ',' :: (dumpJson y2 ++ (dumpItems ys2 ++ (']' :: rest))) := by
          simp [dumpItems]
        have hval := ihV y (by omega) f
          (',' :: (dumpJson y2 ++ (dumpItems ys2 ++ (']' :: rest)))) (by omega) (by rfl)
        have hrec := ihI y2 ys2 (by omega) f rest (by omega) hrest
        rw [show dumpJson y ++ (dumpItems (y2 :: ys2) ++ (']' :: rest))
            = dumpJson y ++ (',' :: (dumpJson y2 ++ (dumpItems ys2 ++ (']' :: rest))))
            from by rw [hX]]
        simp only [parseItemsF]
        simp [parseItemsBody, hval, hrec]
    · -- parseFieldsF round trip
      intro k v fs hN fuel rest hfuel hrest
      have hsz1 : fsize ((k, v) :: fs) = 1 + jsize v + fsize fs := by simp [fsize]
      obtain ⟨f, rfl⟩ : ∃ f, fuel = f + 1 := by
        cases fuel with
        | zero => omega
        | succ f => exact ⟨f, rfl⟩
      cases fs with
      | nil =>
        have hX : dumpFields ([] : List (String × PyVal)) ++ (rbrace :: rest)
            = rbrace :: rest := by simp [dumpFields]
        have hval := ihV v (by omega) f (rbrace :: rest) (by omega) (by rfl)
        rw [show ('\"' :: (escString k.data ++ ('\"' :: (':' :: (dumpJson v ++
            (dumpFields ([] : List (String × PyVal)) ++ (rbrace :: rest)))))) : List Char)
            = '\"' :: (escString k.data ++ ('\"' :: (':' :: (dumpJson v ++
              (rbrace :: rest))))) from by rw [hX]]
        simp only [parseFieldsF]
        rw [parseFieldsBody.eq_def]
        simp [parseStrBody_escString, string_mk_data, hval,
          (by decide : ¬ (rbrace = ','))]
      | cons fv2 fs2 =>
        obtain ⟨k2, v2⟩ := fv2
        have hsz2 : fsize ((k2, v2) :: fs2) = 1 + jsize v2 + fsize fs2 := by
          simp [fsize]
        have hj1 := jsize_pos v
        have hj2 := jsize_pos v2
        have hX : dumpFields ((k2, v2) :: fs2) ++ (rbrace :: rest)
            = ',' :: ('\"' :: (escString k2.data ++ ('\"' :: (':' :: (dumpJson v2 ++
                (dumpFields fs2 ++ (rbrace :: rest))))))) := by
          simp [dumpFields, dumpField]
        have hval := ihV v (by omega) f
          (',' :: ('\"' :: (escString k2.data ++ ('\"' :: (':' :: (dumpJson v2 ++
            (dumpFields fs2 ++ (rbrace :: rest)))))))) (by omega) (by rfl)
        have hrec := ihF k2 v2 fs2 (by omega) f rest (by omega) hrest
        rw [show ('\"' :: (escString k.data ++ ('\"' :: (':' :: (dumpJson v ++
            (dumpFields ((k2, v2) :: fs2) ++ (rbrace :: rest)))))) : List Char)
            = '\"' :: (escString k.data ++ ('\"' :: (':' :: (dumpJson v ++
              (',' :: ('\"' :: (escString k2.data ++ ('\"' :: (':' :: (dumpJson v2 ++
                (dumpFields fs2 ++ (rbrace :: rest)))))))))))) from by rw [hX]]
        simp only [parseFieldsF]
        rw [parseFieldsBody.eq_def]
        simp [parseStrBody_escString, string_mk_data, hval, hrec]

theorem dump_length_master : ∀ N : Nat,
    (∀ j, jsize j ≤ N → jsize j ≤ (dumpJson j).length) ∧
    (∀ ys, isize ys ≤ N → isize ys ≤ (dumpItems ys).length) ∧
    (∀ fs, fsize fs ≤ N → fsize fs ≤ (dumpFields fs).length) := by
  intro N
  induction N with
  | zero =>
    refine ⟨?_, ?_, ?_⟩
    · intro j hN
      exfalso
      have := jsize_pos j
      omega
    · intro ys hN
      cases ys with
      | nil => simp [isize]
      | cons y ys =>
        exfalso
        have h1 : isize (y :: ys) = 1 + jsize y + isize ys := by simp [isize]
        omega
    · intro fs hN
      cases fs with
      | nil => simp [fsize]
      | cons f fs =>
        exfalso
        have h1 : fsize (f :: fs) = 1 + jsize f.2 + fsize fs := by simp [fsize]
        omega
  | succ N ih =>
    obtain ⟨ihV, ihI, ihF⟩ := ih
    refine ⟨?_, ?_, ?_⟩
    · intro j hN
      cases j with
      | pyNone => simp [jsize, dumpJson]
      | pyBool b => cases b <;> simp [jsize, dumpJson]
      | pyInt n =>
        have h1 : dumpJson (PyVal.pyInt n) = intChars n := by simp [dumpJson]
        have h2 : natChars n.natAbs ≠ [] := (natChars_spec n.natAbs).1
        have h3 : 1 ≤ (natChars n.natAbs).length := by
          cases h : natChars n.natAbs with
          | nil => exact absurd h h2
          | cons d ds => simp
        have h4 : jsize (PyVal.pyInt n) = 1 := by simp [jsize]
        rw [h1, h4, intChars]
        by_cases hn : n < 0
        · rw [if_pos hn]
          simp
        · rw [if_neg hn]
          omega
      | pyStr s =>
        have h1 : jsize (PyVal.pyStr s) = 1 := by simp [jsize]
        have h2 : dumpJson (PyVal.pyStr s) = '\"' :: (escString s.toList ++ ['\"']) := by
          simp [dumpJson]
        rw [h1, h2]
        simp
      | pyList xs =>
        cases xs with
        | nil => simp [jsize, isize, dumpJson]
        | cons x xs =>
          have h1 : jsize (PyVal.pyList (x :: xs)) = 1 + isize (x :: xs) := by simp [jsize]
          have h2 : isize (x :: xs) = 1 + jsize x + isize xs := by simp [isize]
          have h3 : dumpJson (PyVal.pyList (x :: xs))
              = '[' :: (dumpJson x ++ dumpItems xs ++ [']']) := by simp [dumpJson]
          have h4 := jsize_pos x
          have h5 := ihV x (by omega)
          have h6 : isize xs ≤ (dumpItems xs).length := by
            refine ihI xs (by omega)
          rw [h1, h3]
          simp
          omega
      | pyDict fs =>
        cases fs with
        | nil => simp [jsize, fsize, dumpJson]
        | cons fv fs2 =>
          obtain ⟨k, v⟩ := fv
          have h1 : jsize (PyVal.pyDict ((k, v) :: fs2)) = 1 + fsize ((k, v) :: fs2) := by
            simp [jsize]
          have h2 : fsize ((k, v) :: fs2) = 1 + jsize v + fsize fs2 := by simp [fsize]
          have h3 : dumpJson (PyVal.pyDict ((k, v) :: fs2))
              = lbrace :: (dumpField (k, v) ++ dumpFields fs2 ++ [rbrace]) := by
            simp [dumpJson]
          have h4 : dumpField (k, v) = '\"' :: (escString k.toList ++ ('\"' :: ':' :: dumpJson v)) := by
            simp [dumpField]
          have h5 := jsize_pos v
          have h6 := ihV v (by omega)
          have h7 : fsize fs2 ≤ (dumpFields fs2).length := ihF fs2 (by omega)
          rw [h1, h3]
          simp [h4]
          omega
    · intro ys hN
      cases ys with
      | nil => simp [isize]
      | cons y ys =>
        have h2 : isize (y :: ys) = 1 + jsize y + isize ys := by simp [isize]
        have h3 : dumpItems (y :: ys) = ',' :: (dumpJson y ++ dumpItems ys) := by
          simp [dumpItems]
        have h4 := jsize_pos y
        have h5 := ihV y (by omega)
        have h6 := ihI ys (by omega)
        rw [h2, h3]
        simp
        omega
    · intro fs hN
      cases fs with
      | nil => simp [fsize]
      | cons fv fs2 =>
        obtain ⟨k, v⟩ := fv
        have h2 : fsize ((k, v) :: fs2) = 1 + jsize v + fsize fs2 := by simp [fsize]
        have h3 : dumpFields ((k, v) :: fs2) = ',' :: (dumpField (k, v) ++ dumpFields fs2) := by
          simp [dumpFields]
        have h4 : dumpField (k, v) = '\"' :: (escString k.toList ++ ('\"' :: ':' :: dumpJson v)) := by
          simp [dumpField]
        have h5 := jsize_pos v
        have h6 := ihV v (by omega)
        have h7 := ihF fs2 (by omega)
        rw [h2, h3]
        simp [h4]
        omega

/-- Round trip of the JSON codec: parsing a serialized document yields
the document back. -/
theorem json_roundtrip (j : PyVal) : json_loads (json_dumps j) = .ok j := by
  have hlen : jsize j ≤ (dumpJson j).length :=
    (dump_length_master (jsize j)).1 j le_rfl
  have hP := (parse_dump_master (jsize j)).1 j le_rfl
    ((dumpJson j).length + 1) [] (by omega) rfl
  rw [List.append_nil] at hP
  have htl : (String.mk (dumpJson j)).toList = dumpJson j := rfl
  rw [json_dumps, json_loads, htl, hP]

theorem run_consume_deliver (body : String) (cbr : CbResp) (rest : List EnvEv) :
    run .consuming (.deliver body cbr :: rest) =
      match (handle_message body cbr).exc with
      | none =>
        ((handle_message body cbr).acts ++ Act.ack :: (run .consuming rest).1,
          (run .consuming rest).2)
      | some .cancelled =>
        ((handle_message body cbr).acts ++ [Act.logShutdown, Act.stTerminated],
          LoopResult.returned)
      | some (.exc _) =>
        ((handle_message body cbr).acts ++ Act.logHandleError :: Act.ack ::
          (run .consuming rest).1, (run .consuming rest).2) := by
  rw [run.eq_def]

theorem resolve_error (body : String) (e : PyErr)
    (hb : json_loads body = .error e) :
    resolve_envelope body = .error e := by
  simp [resolve_envelope, hb]

theorem resolve_direct (body : String) (fs : List (String × PyVal))
    (hb : json_loads body = .ok (.pyDict fs))
    (hno : lookupLast "oslo.message" fs = none) :
    resolve_envelope body = .ok (.pyDict fs) := by
  simp [resolve_envelope, hb, pyContains, hno]

theorem resolve_nested (body : String) (fs : List (String × PyVal)) (s : String)
    (hb : json_loads body = .ok (.pyDict fs))
    (hs : lookupLast "oslo.message" fs = some (.pyStr s)) :
    resolve_envelope body = json_loads s := by
  simp [resolve_envelope, hb, pyContains, hs, pySubscript]

theorem handle_message_resolved (body : String) (cbr : CbResp) (inner : PyVal)
    (h : resolve_envelope body = .ok inner) :
    handle_message body cbr = process_event inner cbr := by
  simp [handle_message, h]

theorem handle_message_error (body : String) (cbr : CbResp) (e : PyErr)
    (h : resolve_envelope body = .error e) :
    handle_message body cbr = ⟨[], some (.exc e)⟩ := by
  simp [handle_message, h]

theorem process_event_skip (fs : List (String × PyVal)) (cbr : CbResp)
    (h : pyEqStr ((lookupLast "event_type" fs).getD (PyVal.pyStr ""))
        "identity.user.created" = false) :
    process_event (.pyDict fs) cbr = ⟨[], none⟩ := by
  simp [process_event, pyGet, h]

theorem process_event_qualified (fs pl : List (String × PyVal)) (v : PyVal)
    (cbr : CbResp)
    (het : (lookupLast "event_type" fs).getD (PyVal.pyStr "")
        = PyVal.pyStr "identity.user.created")
    (hpl : (lookupLast "payload" fs).getD (PyVal.pyDict []) = PyVal.pyDict pl)
    (hv : (lookupLast "resource_info" pl).getD (PyVal.pyStr "") = v) :
    process_event (.pyDict fs) cbr =
      if pyTruthy v = false then ⟨[.logWarning], none⟩
      else
        match cbr with
        | .ok => ⟨[.logReceived v, .callCb v], none⟩
        | .exn => ⟨[.logReceived v, .callCb v], some (.exc .callbackError)⟩
        | .cancel => ⟨[.logReceived v, .callCb v], some .cancelled⟩ := by
  simp [process_event, pyGet, het, hpl, hv, pyEqStr]

theorem process_event_nonobj (inner : PyVal) (cbr : CbResp)
    (h : inner.isDict = false) :
    process_event inner cbr = ⟨[], some (.exc (.getAttrError "event_type"))⟩ := by
  cases inner <;> simp_all [PyVal.isDict, process_event, pyGet]

/-- C1: start_notification_listener is claimed to return normally in the
Terminated state on a cancellation signal delivered at any point.  The
code violates this for a cancellation delivered during the backoff
sleep: asyncio.sleep(10) sits inside the except-Exception handler,
outside the try block, so the CancelledError propagates out of the
function instead of being caught — contradicting the function's own
docstring ("The loop exits cleanly on asyncio.CancelledError").  This
theorem evaluates the loop at the failing input: connect fails, then
cancellation arrives during the backoff sleep; the run raises instead of
returning and never reaches Terminated. -/

theorem C1_cancel_during_backoff_raises :
    start_notification_listener [EnvEv.exn, EnvEv.cancel]
      = ([Act.stConnecting, Act.logConnFail, Act.stBackoff],
          LoopResult.raisedCancel)
    ∧ LoopResult.raisedCancel ≠ LoopResult.returned := ⟨rfl, by decide⟩

/-- C2: for every raw body whose JSON parse is an object carrying an
"oslo.message" field holding a string that itself parses to the event
document with event_type "identity.user.created" and payload
resource_info "U1", the handler invokes the callback exactly once with
"U1"; the nested field takes precedence over any other top-level fields
(the envelope fs is arbitrary). -/
theorem C2_nested_precedence (body : String) (fs : List (String × PyVal))
    (s : String) (cbr : CbResp)
    (hb : json_loads body = .ok (.pyDict fs))
    (hoslo : lookupLast "oslo.message" fs = some (.pyStr s))
    (hs : json_loads s
      = .ok (PyVal.pyDict [("event_type", PyVal.pyStr "identity.user.created"),
          ("payload", PyVal.pyDict [("resource_info", PyVal.pyStr "U1")])])) :
    callsOf (handle_message body cbr).acts = [PyVal.pyStr "U1"] := by
  have hres : resolve_envelope body
      = .ok (PyVal.pyDict [("event_type", PyVal.pyStr "identity.user.created"),
          ("payload", PyVal.pyDict [("resource_info", PyVal.pyStr "U1")])]) := by
    rw [resolve_nested body fs s hb hoslo, hs]
  rw [handle_message_resolved body cbr _ hres]
  cases cbr <;> rfl

theorem C2_witness :
    callsOf (handle_message c2Body CbResp.ok).acts = [PyVal.pyStr "U1"] :=
  C2_nested_precedence c2Body
    [("oslo.message", PyVal.pyStr (json_dumps c2InnerDoc)),
      ("event_type", PyVal.pyStr "compute.instance.update")]
    (json_dumps c2InnerDoc) CbResp.ok (json_roundtrip _) rfl (json_roundtrip _)

/-- C3: for every resolved envelope whose event_type compares unequal to
"identity.user.created" (any other string, the empty-string default when
the field is absent, and any non-string value), the callback is never
invoked and the handler returns normally with no action at all. -/
theorem C3_event_filter (body : String) (fs : List (String × PyVal))
    (cbr : CbResp)
    (hres : resolve_envelope body = .ok (PyVal.pyDict fs))
    (het : pyEqStr ((lookupLast "event_type" fs).getD (PyVal.pyStr ""))
        "identity.user.created" = false) :
    handle_message body cbr = ⟨[], none⟩ := by
  rw [handle_message_resolved body cbr _ hres, process_event_skip fs cbr het]

theorem C3_witness : handle_message c3Body CbResp.ok = ⟨[], none⟩ :=
  C3_event_filter c3Body [("event_type", PyVal.pyStr "identity.user.deleted")]
    CbResp.ok (resolve_direct _ _ (json_roundtrip _) rfl) rfl

/-- C4: a message whose body fails to parse does not break the consume
loop: the handler's exception is caught and logged, the message is still
acknowledged, and the loop continues with the remaining script
unchanged. -/
theorem C4_malformed_isolated (body : String) (cbr : CbResp)
    (rest : List EnvEv) (e : PyErr) (hbad : json_loads body = .error e) :
    run .consuming (.deliver body cbr :: rest)
      = (Act.logHandleError :: Act.ack :: (run .consuming rest).1,
          (run .consuming rest).2) := by
  have hh : handle_message body cbr = ⟨[], some (.exc e)⟩ :=
    handle_message_error body cbr e (resolve_error body e hbad)
  rw [run_consume_deliver, hh]
  rfl

theorem C4_witness :
    run .consuming [EnvEv.deliver "nope" CbResp.ok]
      = (Act.logHandleError :: Act.ack :: (run .consuming []).1,
          (run .consuming []).2) :=
  C4_malformed_isolated "nope" CbResp.ok [] PyErr.jsonDecode rfl

/-- C5: when the dispatched callback raises, the exception is caught and
logged inside the per-message step, the message is still acknowledged,
and the loop continues processing the remaining script unchanged — the
consumer does not terminate. -/
theorem C5_dispatch_failure_isolated (body : String) (cbr : CbResp)
    (rest : List EnvEv)
    (hfail : (handle_message body cbr).exc = some (.exc .callbackError)) :
    run .consuming (.deliver body cbr :: rest)
      = ((handle_message body cbr).acts ++ Act.logHandleError :: Act.ack ::
          (run .consuming rest).1, (run .consuming rest).2) := by
  rw [run_consume_deliver, hfail]

theorem C5_witness :
    run .consuming [EnvEv.deliver c5Body CbResp.exn]
      = ((handle_message c5Body CbResp.exn).acts ++ Act.logHandleError ::
          Act.ack :: (run .consuming []).1, (run .consuming []).2) :=
  C5_dispatch_failure_isolated c5Body CbResp.exn []
    (by rw [handle_message_resolved c5Body CbResp.exn _
        (resolve_direct _ _ (json_roundtrip _) rfl)]
        rfl)

/-- C6: a qualifying event whose payload lacks resource_info or carries
an empty string there never invokes the callback: the handler logs a
warning and returns normally (no exception). -/
theorem C6_empty_resource_info (body : String) (fs pl : List (String × PyVal))
    (cbr : CbResp)
    (hres : resolve_envelope body = .ok (PyVal.pyDict fs))
    (het : (lookupLast "event_type" fs).getD (PyVal.pyStr "")
        = PyVal.pyStr "identity.user.created")
    (hpl : (lookupLast "payload" fs).getD (PyVal.pyDict []) = PyVal.pyDict pl)
    (hri : (lookupLast "resource_info" pl).getD (PyVal.pyStr "") = PyVal.pyStr "") :
    handle_message body cbr = ⟨[Act.logWarning], none⟩ := by
  rw [handle_message_resolved body cbr _ hres,
    process_event_qualified fs pl (PyVal.pyStr "") cbr het hpl hri]
  rfl

theorem C6_witness : handle_message c6Body CbResp.ok = ⟨[Act.logWarning], none⟩ :=
  C6_empty_resource_info c6Body
    [("event_type", PyVal.pyStr "identity.user.created")] [] CbResp.ok
    (resolve_direct _ _ (json_roundtrip _) rfl) rfl rfl rfl

theorem run_failEpisode (k : Fin 7) (rest : List EnvEv) :
    run (.connecting 6) (failEpisode k ++ rest)
      = (episodeActs k ++ (run (.connecting 6) rest).1,
          (run (.connecting 6) rest).2) := by
  fin_cases k <;> rfl

theorem episodeActs_counts (k : Fin 7) :
    (episodeActs k).countP isBackoffAct = 1 ∧
    (episodeActs k).countP isSleep10Act = 1 ∧
    (episodeActs k).countP isSleepAct = 1 ∧
    (episodeActs k).countP isConnectingAct = 1 ∧
    (episodeActs k).countP isTerminatedAct = 0 := by
  fin_cases k <;> exact ⟨rfl, rfl, rfl, rfl, rfl⟩

theorem run_failScript (ks : List (Fin 7)) :
    (run (.connecting 6) (failScript ks)).2 = LoopResult.stuck
    ∧ (run (.connecting 6) (failScript ks)).1.countP isBackoffAct = ks.length
    ∧ (run (.connecting 6) (failScript ks)).1.countP isSleep10Act = ks.length
    ∧ (run (.connecting 6) (failScript ks)).1.countP isSleepAct = ks.length
    ∧ (run (.connecting 6) (failScript ks)).1.countP isConnectingAct = ks.length
    ∧ (run (.connecting 6) (failScript ks)).1.countP isTerminatedAct = 0 := by
  induction ks with
  | nil => exact ⟨rfl, rfl, rfl, rfl, rfl, rfl⟩
  | cons k ks ih =>
    have hsc : failScript (k :: ks) = failEpisode k ++ failScript ks := by
      simp [failScript]
    obtain ⟨e1, e2, e3, e4, e5⟩ := episodeActs_counts k
    obtain ⟨h1, h2, h3, h4, h5, h6⟩ := ih
    rw [hsc, run_failEpisode]
    refine ⟨h1, ?_, ?_, ?_, ?_, ?_⟩
    · rw [List.countP_append, e1, h2, List.length_cons]
      omega
    · rw [List.countP_append, e2, h3, List.length_cons]
      omega
    · rw [List.countP_append, e3, h4, List.length_cons]
      omega
    · rw [List.countP_append, e4, h5, List.length_cons]
      omega
    · rw [List.countP_append, e5, h6]

/-- C7: for any number of consecutive connection failures, each at any
phase (during connect, topology declaration, binding, or mid-stream
consumption), the loop enters Backoff once per failure, every backoff
delay is a sleep of exactly 10 seconds (the count of sleeps equals the
count of 10-second sleeps: no growth, no other duration), the loop
re-enters Connecting after each delay — attempting one more connection
than there were failures, with no retry limit — never reaches
Terminated, and ends the script still running (stuck), so no connection
failure is surfaced to the caller. -/
theorem C7_fixed_backoff_retry_forever (ks : List (Fin 7)) :
    (start_notification_listener (failScript ks)).2 = LoopResult.stuck
    ∧ (start_notification_listener (failScript ks)).1.countP isBackoffAct
        = ks.length
    ∧ (start_notification_listener (failScript ks)).1.countP isSleep10Act
        = ks.length
    ∧ (start_notification_listener (failScript ks)).1.countP isSleepAct
        = ks.length
    ∧ (start_notification_listener (failScript ks)).1.countP isConnectingAct
        = ks.length + 1
    ∧ (start_notification_listener (failScript ks)).1.countP isTerminatedAct
        = 0 := by
  obtain ⟨h1, h2, h3, h4, h5, h6⟩ := run_failScript ks
  refine ⟨h1, ?_, ?_, ?_, ?_, ?_⟩ <;>
    · show List.countP _ (Act.stConnecting :: _) = _
      rw [List.countP_cons]
      simp [isBackoffAct, isSleep10Act, isSleepAct, isConnectingAct,
        isTerminatedAct, h2, h3, h4, h5, h6]

/-- C8: round trip through the nested form.  Any event record — an
arbitrary eventType string and an arbitrary payload mapping — that is
JSON-encoded, wrapped as the string value of the "oslo.message" key of
an outer object, encoded to bytes, and then decoded by the envelope
resolver yields exactly the original envelope, from which the handler's
field reads recover the original eventType and payload. -/
theorem C8_nested_roundtrip (et : String) (payload : List (String × PyVal)) :
    resolve_envelope (json_dumps (PyVal.pyDict [("oslo.message",
        PyVal.pyStr (json_dumps (PyVal.pyDict [("event_type", PyVal.pyStr et),
          ("payload", PyVal.pyDict payload)])))]))
      = .ok (PyVal.pyDict [("event_type", PyVal.pyStr et),
          ("payload", PyVal.pyDict payload)])
    ∧ pyGet "event_type" (PyVal.pyStr "")
        (PyVal.pyDict [("event_type", PyVal.pyStr et), ("payload", PyVal.pyDict payload)])
      = .ok (PyVal.pyStr et)
    ∧ pyGet "payload" (PyVal.pyDict [])
        (PyVal.pyDict [("event_type", PyVal.pyStr et), ("payload", PyVal.pyDict payload)])
      = .ok (PyVal.pyDict payload) := by
  refine ⟨?_, rfl, rfl⟩
  rw [resolve_nested
    (json_dumps (PyVal.pyDict [("oslo.message",
      PyVal.pyStr (json_dumps (PyVal.pyDict [("event_type", PyVal.pyStr et),
        ("payload", PyVal.pyDict payload)])))]))
    [("oslo.message", PyVal.pyStr (json_dumps (PyVal.pyDict [("event_type", PyVal.pyStr et),
      ("payload", PyVal.pyDict payload)])))]
    (json_dumps (PyVal.pyDict [("event_type", PyVal.pyStr et),
      ("payload", PyVal.pyDict payload)]))
    (json_roundtrip _) rfl]
  exact json_roundtrip _

/-- C9: the handler never checks that resource_info is a string.  For a
qualifying event whose payload binds resource_info to any truthy value
— of any JSON type — the callback is invoked exactly once with that
value passed through unchanged; for any falsy value (empty string,
zero, false, null, empty list, empty dict) the warning path is taken
and the callback is never invoked. -/
theorem C9_truthiness_dispatch (body : String) (fs pl : List (String × PyVal))
    (v : PyVal) (cbr : CbResp)
    (hres : resolve_envelope body = .ok (PyVal.pyDict fs))
    (het : (lookupLast "event_type" fs).getD (PyVal.pyStr "")
        = PyVal.pyStr "identity.user.created")
    (hpl : (lookupLast "payload" fs).getD (PyVal.pyDict []) = PyVal.pyDict pl)
    (hv : lookupLast "resource_info" pl = some v) :
    (pyTruthy v = true → callsOf (handle_message body cbr).acts = [v])
    ∧ (pyTruthy v = false → handle_message body cbr = ⟨[Act.logWarning], none⟩) := by
  have hgd : (lookupLast "resource_info" pl).getD (PyVal.pyStr "") = v := by
    rw [hv]
    rfl
  rw [handle_message_resolved body cbr _ hres,
    process_event_qualified fs pl v cbr het hpl hgd]
  constructor
  · intro ht
    rw [if_neg (by simp [ht])]
    cases cbr <;> rfl
  · intro hf
    rw [if_pos hf]

theorem C9_witness :
    callsOf (handle_message c9Body CbResp.ok).acts = [PyVal.pyInt 5] :=
  (C9_truthiness_dispatch c9Body
    [("event_type", PyVal.pyStr "identity.user.created"),
      ("payload", PyVal.pyDict [("resource_info", PyVal.pyInt 5)])]
    [("resource_info", PyVal.pyInt 5)] (PyVal.pyInt 5) CbResp.ok
    (resolve_direct _ _ (json_roundtrip _) rfl) rfl rfl rfl).1 rfl

/-- C10 counterexample: the claim says a valid-JSON body whose resolved
envelope is not a mapping raises "when reading event_type" — that is,
the AttributeError from inner.get.  For the body "5" the exception is
raised earlier, by the membership test "oslo.message" in data on an
int (TypeError: argument not iterable), not by the event_type read. -/
theorem C10_counterexample :
    handle_message "5" CbResp.ok
      = ⟨[], some (PyExc.exc PyErr.containsTypeError)⟩
    ∧ PyErr.containsTypeError ≠ PyErr.getAttrError "event_type" :=
  ⟨rfl, by decide⟩

/-- C10 (amended): for a body parsing to a non-mapping envelope — a
non-object top level, or an "oslo.message" string decoding to a
non-object — the handler raises an exception (at the membership test or
subscript for non-container envelopes, when reading event_type
otherwise); the consume loop catches and logs it like a decode failure,
the callback is never invoked, and the message is still acknowledged
with the loop continuing. -/
theorem C10_nonmapping_envelope (body : String) (data : PyVal) (cbr : CbResp)
    (rest : List EnvEv)
    (hb : json_loads body = .ok data)
    (hcase : data.isDict = false
      ∨ ∃ fs s inner, data = PyVal.pyDict fs
          ∧ lookupLast "oslo.message" fs = some (PyVal.pyStr s)
          ∧ json_loads s = .ok inner ∧ inner.isDict = false) :
    (∃ e, handle_message body cbr = ⟨[], some (PyExc.exc e)⟩)
    ∧ run .consuming (.deliver body cbr :: rest)
        = (Act.logHandleError :: Act.ack :: (run .consuming rest).1,
            (run .consuming rest).2) := by
  have hh : ∃ e, handle_message body cbr = ⟨[], some (PyExc.exc e)⟩ := by
    rcases hcase with h | ⟨fs, s, inner, hdata, hlk, hs, hobj⟩
    · cases data with
      | pyDict fs => simp [PyVal.isDict] at h
      | pyNone =>
        exact ⟨.containsTypeError, handle_message_error _ _ _
          (by simp [resolve_envelope, hb, pyContains])⟩
      | pyBool b =>
        exact ⟨.containsTypeError, handle_message_error _ _ _
          (by simp [resolve_envelope, hb, pyContains])⟩
      | pyInt n =>
        exact ⟨.containsTypeError, handle_message_error _ _ _
          (by simp [resolve_envelope, hb, pyContains])⟩
      | pyList xs =>
        cases hc : xs.any (fun x => pyEqStr x "oslo.message") with
        | true =>
          exact ⟨.subscriptTypeError, handle_message_error _ _ _
            (by simp [resolve_envelope, hb, pyContains, hc, pySubscript])⟩
        | false =>
          refine ⟨.getAttrError "event_type", ?_⟩
          rw [handle_message_resolved body cbr (PyVal.pyList xs)
            (by simp [resolve_envelope, hb, pyContains, hc])]
          exact process_event_nonobj (PyVal.pyList xs) cbr rfl
      | pyStr s2 =>
        cases hc : containsSub "oslo.message".toList s2.toList with
        | true =>
          simp at hc
          exact ⟨.subscriptTypeError, handle_message_error _ _ _
            (by simp [resolve_envelope, hb, pyContains, hc, pySubscript])⟩
        | false =>
          simp at hc
          refine ⟨.getAttrError "event_type", ?_⟩
          rw [handle_message_resolved body cbr (PyVal.pyStr s2)
            (by simp [resolve_envelope, hb, pyContains, hc])]
          exact process_event_nonobj (PyVal.pyStr s2) cbr rfl
    · subst hdata
      refine ⟨.getAttrError "event_type", ?_⟩
      rw [handle_message_resolved body cbr inner
        (by rw [resolve_nested body fs s hb hlk, hs])]
      exact process_event_nonobj inner cbr hobj
  obtain ⟨e, he⟩ := hh
  refine ⟨⟨e, he⟩, ?_⟩
  rw [run_consume_deliver, he]
  rfl

theorem C10_amended_witness :
    (∃ e, handle_message "5" CbResp.ok = ⟨[], some (PyExc.exc e)⟩)
    ∧ run .consuming [EnvEv.deliver "5" CbResp.ok]
        = (Act.logHandleError :: Act.ack :: (run .consuming []).1,
            (run .consuming []).2) :=
  C10_nonmapping_envelope "5" (PyVal.pyInt 5) CbResp.ok [] rfl
    (Or.inl rfl)
